import Mathlib

/-!
Verification of the inventory-and-order consistency core of `inventory-ace-63`.

The TypeScript source is shallowly embedded: products, orders and order-form
lines become Lean structures (JS numbers that hold currency amounts become `ℚ`,
stock counts and thresholds become `Nat`, user-typed quantities become `Int`),
and each relevant function of the source is translated into an executable Lean
definition carrying the same name.  The server-side order commit protocol is
not part of the repository (the client only issues `api.post('/orders', ...)`),
so it is modelled from the specification where noted.
-/

namespace InventoryAce

/-- Product record as in `src/services/api.ts` (`Product` interface):
`id`, `name`, `price`, `stock`, `lowStockThreshold`.  The optional
`description`/timestamps play no role in any claim and are omitted. -/
structure Product where
  id : String
  name : String
  price : ℚ
  stock : Nat
  lowStockThreshold : Nat
deriving DecidableEq

/-- Order line as in `src/services/api.ts` (`OrderItem` interface). -/
structure OrderItem where
  productId : String
  quantity : Int
  price : ℚ
deriving DecidableEq

/-- Order record as in `src/services/api.ts` (`Order` interface); `createdAt`
is the creation timestamp (modelled as a number). -/
structure Order where
  id : String
  items : List OrderItem
  totalPrice : ℚ
  createdAt : Nat
deriving DecidableEq

/-- Stock status labels produced by `getStockStatus` in `src/pages/Products.tsx`. -/
inductive StockStatus where
  | outOfStock
  | lowStock
  | inStock
deriving DecidableEq

/-- Urgency labels produced by `getUrgencyLevel` in `src/pages/Products.tsx`
("critical" / "high" / "medium"; the function has no fourth value). -/
inductive Urgency where
  | critical
  | high
  | medium
deriving DecidableEq

/-- Urgency tiers as the specification words them (§4.4): Critical, High,
Medium, and None for in-stock products. -/
inductive SpecUrgency where
  | critical
  | high
  | medium
  | noUrgency
deriving DecidableEq

/-- Embedding of the source's urgency labels into the spec's tier alphabet. -/
def Urgency.toSpec : Urgency → SpecUrgency
  | .critical => .critical
  | .high => .high
  | .medium => .medium

/-- `getStockStatus` from `src/pages/Products.tsx`:
stock 0 ↦ "Out of Stock", stock ≤ threshold ↦ "Low Stock", else "In Stock". -/
def getStockStatus (stock threshold : Nat) : StockStatus :=
  if stock = 0 then .outOfStock
  else if stock ≤ threshold then .lowStock
  else .inStock

/-- `getUrgencyLevel` from `src/pages/Products.tsx`:
stock 0 ↦ "critical", stock ≤ Math.floor(threshold * 0.5) ↦ "high",
else "medium".  `Math.floor (threshold * 0.5)` on a natural threshold is
natural division by 2. -/
def getUrgencyLevel (stock threshold : Nat) : Urgency :=
  if stock = 0 then .critical
  else if stock ≤ threshold / 2 then .high
  else .medium

/-- The pair (status, urgency) the source computes for a product, read on the
spec's alphabet so it can be compared with the spec's classifier. -/
def classify (stock threshold : Nat) : StockStatus × SpecUrgency :=
  (getStockStatus stock threshold, (getUrgencyLevel stock threshold).toSpec)

/-- Classifier exactly as the specification words it (§4.4), used only to
compare against `classify`: the fourth bucket gets urgency None. -/
def specClassify (stock threshold : Nat) : StockStatus × SpecUrgency :=
  if stock = 0 then (.outOfStock, .critical)
  else if stock ≤ threshold / 2 then (.lowStock, .high)
  else if stock ≤ threshold then (.lowStock, .medium)
  else (.inStock, .noUrgency)

/-- Dashboard statistics record returned by `dashboardApi.getStats` in
`src/services/api.ts`. -/
structure DashboardStats where
  totalProducts : Nat
  totalOrders : Nat
  lowStockCount : Nat
  recentOrders : List Order
  lowStockProducts : List Product
deriving DecidableEq

/-- `dashboardApi.getStats` from `src/services/api.ts`, as a function of the
fetched product and order lists: filters products with
`p.stock <= p.lowStockThreshold`, counts, and slices the first five orders
(`orders.slice(0, 5)`). -/
def getStats (products : List Product) (orders : List Order) : DashboardStats :=
  let lowStockProducts := products.filter (fun p => p.stock ≤ p.lowStockThreshold)
  { totalProducts := products.length
    totalOrders := orders.length
    lowStockCount := lowStockProducts.length
    recentOrders := orders.take 5
    lowStockProducts := lowStockProducts }

/-- The `recentOrders` the specification describes (§4.5): orders sorted by
creation timestamp descending, truncated to the five most recent.  Used only
to compare against the source's `orders.slice(0, 5)`. -/
def specRecentOrders (orders : List Order) : List Order :=
  (orders.insertionSort (fun a b => b.createdAt ≤ a.createdAt)).take 5

/-- Numeric rank used by the low-stock page's comparator
(`urgencyOrder = { critical: 0, high: 1, medium: 2 }` in
`src/pages/Products.tsx`). -/
def urgencyRank : Urgency → Nat
  | .critical => 0
  | .high => 1
  | .medium => 2

/-- Rank of a product's derived urgency, the sort key of the low-stock table. -/
def prodUrgency (p : Product) : Nat :=
  urgencyRank (getUrgencyLevel p.stock p.lowStockThreshold)

/-- Comparison relation realised by the page's comparator
`urgencyOrder[getUrgencyLevel(a)] - urgencyOrder[getUrgencyLevel(b)]`. -/
def urgencyLE (a b : Product) : Prop :=
  prodUrgency a ≤ prodUrgency b

instance : DecidableRel urgencyLE := fun _ _ => Nat.decLe _ _

instance : IsTotal Product urgencyLE := ⟨fun _ _ => Nat.le_total _ _⟩

instance : IsTrans Product urgencyLE := ⟨fun _ _ _ => Nat.le_trans⟩

/-- The low-stock table ordering from `src/pages/Products.tsx`:
`lowStockProducts.sort((a, b) => urgencyOrder[...a] - urgencyOrder[...b])`.
JavaScript `Array.prototype.sort` is a stable sort consistent with the
comparator, and any stable sort by the total preorder `urgencyLE` yields
the same list, so it is embedded as insertion sort by `urgencyLE`. -/
def sortLowStock (ps : List Product) : List Product :=
  ps.insertionSort urgencyLE

/-- Display ordering exactly as the specification words it (§4.4): ascending
urgency rank, ties broken by ascending stock then by product name.  Used only
to compare against `sortLowStock`. -/
def specSortLowStock (ps : List Product) : List Product :=
  ps.insertionSort (fun a b =>
    prodUrgency a < prodUrgency b ∨
      (prodUrgency a = prodUrgency b ∧
        (a.stock < b.stock ∨ (a.stock = b.stock ∧ ¬ b.name < a.name))))

/-- Order-form line from the Orders page (`OrderFormItem` interface in the
unnamed Orders page source): product selection plus snapshots of the selected
product's name, price and stock, and the typed quantity. -/
structure OrderFormItem where
  productId : String
  productName : String
  price : ℚ
  availableStock : Nat
  quantity : Int
deriving DecidableEq

/-- Failure cases of the client-side `validateOrder` (each corresponds to one
of its three toast branches). -/
inductive ClientError where
  | noProductSelected
  | insufficientStock
  | invalidQuantity
deriving DecidableEq

/-- One line's check inside `validateOrder` (Orders page): empty `productId`
fails first, then `quantity > availableStock`, then `quantity <= 0`. -/
def validateItem (it : OrderFormItem) : Option ClientError :=
  if it.productId = "" then some .noProductSelected
  else if (it.availableStock : Int) < it.quantity then some .insufficientStock
  else if it.quantity ≤ 0 then some .invalidQuantity
  else none

/-- `validateOrder` from the Orders page: walks the lines and returns false on
the first failing check, true when every line passes. -/
def validateOrder (items : List OrderFormItem) : Bool :=
  items.all (fun it => (validateItem it).isNone)

/-- Validator as the claim words it: each line's `productId` must resolve to a
product of the current product list, the quantity must be positive and must
not exceed that product's currently known stock.  Used only to compare against
`validateOrder`. -/
def specValidateOrder (products : List Product) (items : List OrderFormItem) : Bool :=
  items.all (fun it =>
    match products.find? (fun p => p.id = it.productId) with
    | none => false
    | some p => decide (0 < it.quantity) && decide (it.quantity ≤ (p.stock : Int)))

/-- `calculateTotal` from the Orders page:
`orderItems.reduce((total, item) => total + item.price * item.quantity, 0)`. -/
def calculateTotal (items : List OrderFormItem) : ℚ :=
  items.foldl (fun total it => total + it.price * (it.quantity : ℚ)) 0

/-- Request body a submitted order carries (`orderData` in `handleSubmitOrder`):
the mapped line items and the computed total. -/
structure OrderRequest where
  items : List OrderItem
  totalPrice : ℚ
deriving DecidableEq

/-- The `orderData` value built by `handleSubmitOrder` on the Orders page. -/
def orderData (items : List OrderFormItem) : OrderRequest :=
  { items := items.map (fun it => ⟨it.productId, it.quantity, it.price⟩)
    totalPrice := calculateTotal items }

/-- Rounding to the currency's minor unit (2 decimal places) as the
specification describes it; used only to compare with the source's total. -/
def roundToCents (q : ℚ) : ℚ :=
  (⌊q * 100 + 1 / 2⌋ : ℚ) / 100

/-- `availableProducts` from the Orders page: ids already chosen on some line,
other than the empty selection and the current line's own selection, are
excluded, and only products with positive stock are offered. -/
def availableProducts (orderItems : List OrderFormItem) (products : List Product)
    (currentProductId : String) : List Product :=
  let selectedProductIds := (orderItems.map (fun it => it.productId)).filter
    (fun pid => !(pid = "" : Bool) && !(pid = currentProductId : Bool))
  products.filter (fun p =>
    decide (0 < p.stock) && !(decide (p.id ∈ selectedProductIds)))

/-- Dropdown contents as the claim words them for line `i`: products with
positive stock whose id is not selected on any line other than line `i`.
Used only to compare against `availableProducts`. -/
def specAvailableProducts (orderItems : List OrderFormItem) (products : List Product)
    (i : Nat) : List Product :=
  products.filter (fun p =>
    decide (0 < p.stock) &&
      decide (∀ j : Fin orderItems.length, j.val ≠ i →
        (orderItems.get j).productId ≠ p.id))

/-- `updateOrderItem` from the Orders page, for the `field = "productId"`
branch: when the chosen id resolves via `products.find`, the line at `index`
is rewritten with the product's name, price and stock and its quantity is
clamped to `Math.min(quantity, stock)`; otherwise the item list is returned
unchanged. -/
def updateOrderItem (orderItems : List OrderFormItem) (index : Nat) (value : String)
    (products : List Product) : List OrderFormItem :=
  match products.find? (fun p => p.id = value) with
  | none => orderItems
  | some sp =>
    match orderItems[index]? with
    | none => orderItems
    | some old =>
      orderItems.set index
        { productId := value
          productName := sp.name
          price := sp.price
          availableStock := sp.stock
          quantity := min old.quantity (sp.stock : Int) }

/-- Server-side state the commit protocol acts on: the product catalog (the
Stock Ledger) and the order store. -/
structure LedgerState where
  products : List Product
  orders : List Order
deriving DecidableEq

/-- Failure taxonomy of `createOrder` (§6 of the specification). -/
inductive OrderError where
  | productNotFound
  | invalidQuantity
  | insufficientStock
deriving DecidableEq

/-- Total quantity an order requests for one product id, aggregating duplicate
lines (§4.3 step 1 of the specification). -/
def requiredQty (items : List OrderItem) (pid : String) : Int :=
  ((items.filter (fun it => it.productId = pid)).map (fun it => it.quantity)).sum

/-- Modelled from the spec: the check of one request line (§4.2, §4.3 step 2
and the §6 signature) — the repository contains no server code, only the HTTP
call `orderApi.create`.  Resolve the product (`ProductNotFound` if absent),
reject non-positive quantities (`InvalidQuantity`), and reject the order when
the *aggregated* demand for the line's product exceeds its current stock
(`InsufficientStock`). -/
def lineCheck (products : List Product) (items : List OrderItem)
    (it : OrderItem) : Option OrderError :=
  match products.find? (fun p => p.id = it.productId) with
  | none => some .productNotFound
  | some p =>
    if it.quantity ≤ (0 : Int) then some .invalidQuantity
    else if (p.stock : Int) < requiredQty items it.productId then some .insufficientStock
    else none

/-- Modelled from the spec: validation of a whole `createOrder` request —
the first failing line check, if any. -/
def validateRequest (products : List Product) (items : List OrderItem) : Option OrderError :=
  items.findSome? (lineCheck products items)

/-- Modelled from the spec: the order commit protocol `createOrder` (§4.3) —
the server is not part of the repository.  Validation failure leaves the
state untouched and reports the typed error; success decrements every
product's stock by the aggregated demand for its id and prepends the new
order, whose `totalPrice` is the sum of item price×quantity, in one
all-or-nothing transition. -/
def createOrder (st : LedgerState) (items : List OrderItem) (oid : String)
    (ts : Nat) : LedgerState × Option OrderError :=
  match validateRequest st.products items with
  | some e => (st, some e)
  | none =>
    ({ products := st.products.map (fun p =>
          { p with stock := p.stock - (requiredQty items p.id).toNat })
       orders := { id := oid, items := items
                   totalPrice := (items.map (fun it => it.price * (it.quantity : ℚ))).sum
                   createdAt := ts } :: st.orders },
     none)

/-- C1 (counterexample): at stock 6 and threshold 5 the source classifies the
product as InStock with urgency "medium" — `getUrgencyLevel` has no None
value — contradicting the claimed InStock/None bucket. -/
theorem classify_six_five_ne_spec :
    classify 6 5 ≠ specClassify 6 5 ∧ classify 6 5 = (.inStock, .medium) := by
  decide

/-- C1 (amended): the classifier is a pure function of (stock, threshold) with
buckets OutOfStock/Critical at stock 0, LowStock/High for
0 < stock ≤ floor(threshold/2), LowStock/Medium for
floor(threshold/2) < stock ≤ threshold, and for stock > threshold the status
is InStock while the urgency function still reports Medium (it never
returns a None tier). -/
theorem classify_buckets (stock t : Nat) :
    (stock = 0 → classify stock t = (.outOfStock, .critical)) ∧
    (0 < stock → stock ≤ t / 2 → classify stock t = (.lowStock, .high)) ∧
    (t / 2 < stock → stock ≤ t → classify stock t = (.lowStock, .medium)) ∧
    (t < stock → classify stock t = (.inStock, .medium)) := by
  refine ⟨fun h => ?_, fun h1 h2 => ?_, fun h1 h2 => ?_, fun h => ?_⟩
  · subst h
    simp [classify, getStockStatus, getUrgencyLevel, Urgency.toSpec]
  · have h0 : ¬ stock = 0 := by omega
    have hle : stock ≤ t := le_trans h2 (Nat.div_le_self t 2)
    simp [classify, getStockStatus, getUrgencyLevel, Urgency.toSpec, h0, h2, hle]
  · have h0 : ¬ stock = 0 := by omega
    have hn : ¬ stock ≤ t / 2 := by omega
    simp [classify, getStockStatus, getUrgencyLevel, Urgency.toSpec, h0, hn, h2]
  · have h0 : ¬ stock = 0 := by omega
    have hn1 : ¬ stock ≤ t := by omega
    have hn2 : ¬ stock ≤ t / 2 := by omega
    simp [classify, getStockStatus, getUrgencyLevel, Urgency.toSpec, h0, hn1, hn2]

/-- C1 (witness): the High bucket instantiated at stock 2, threshold 5. -/
theorem classify_buckets_witness : classify 2 5 = (.lowStock, .high) :=
  (classify_buckets 2 5).2.1 (by decide) (by decide)

/-- Low-stock filter predicate of the dashboard coincides with the classifier
reporting LowStock or OutOfStock. -/
theorem lowStock_status_iff (s t : Nat) :
    (getStockStatus s t = .lowStock ∨ getStockStatus s t = .outOfStock) ↔ s ≤ t := by
  unfold getStockStatus
  split_ifs with h1 h2 <;> simp_all

/-- C5: `getStats` reports the product count, the order count, the products
whose classifier status is LowStock or OutOfStock as `lowStockProducts`, and
their number as `lowStockCount`. -/
theorem getStats_counts (products : List Product) (orders : List Order) :
    (getStats products orders).totalProducts = products.length ∧
    (getStats products orders).totalOrders = orders.length ∧
    (getStats products orders).lowStockProducts
      = products.filter (fun p =>
          decide (getStockStatus p.stock p.lowStockThreshold = .lowStock ∨
            getStockStatus p.stock p.lowStockThreshold = .outOfStock)) ∧
    (getStats products orders).lowStockCount
      = (products.filter (fun p =>
          decide (getStockStatus p.stock p.lowStockThreshold = .lowStock ∨
            getStockStatus p.stock p.lowStockThreshold = .outOfStock))).length := by
  have hfilter : products.filter (fun p => p.stock ≤ p.lowStockThreshold)
      = products.filter (fun p =>
          decide (getStockStatus p.stock p.lowStockThreshold = .lowStock ∨
            getStockStatus p.stock p.lowStockThreshold = .outOfStock)) := by
    refine List.filter_congr (fun p _ => ?_)
    rw [decide_eq_decide]
    exact (lowStock_status_iff p.stock p.lowStockThreshold).symm
  exact ⟨rfl, rfl, hfilter, by simp [getStats, hfilter]⟩

/-- C6 (counterexample): with two orders returned oldest-first, `getStats`
keeps them in that order, while the claimed timestamp-descending ordering
would swap them. -/
theorem getStats_recentOrders_not_sorted :
    (getStats [] [⟨"o1", [], 0, 1⟩, ⟨"o2", [], 0, 2⟩]).recentOrders
      ≠ specRecentOrders [⟨"o1", [], 0, 1⟩, ⟨"o2", [], 0, 2⟩] := by
  decide

/-- C6 (amended): `recentOrders` is the first five orders in the order the
server returned them — no sorting by creation timestamp is applied — so its
length is min(5, number of orders); it equals the five most recent only when
the server already returns orders newest-first. -/
theorem getStats_recentOrders (products : List Product) (orders : List Order) :
    (getStats products orders).recentOrders = orders.take 5 ∧
    (getStats products orders).recentOrders.length = min 5 orders.length :=
  ⟨rfl, by simp [getStats]⟩

/-- C7 (counterexample): two products of equal (Medium) urgency stay in input
order under the source's sort, while the claimed stock/name tie-break would
put the stock-3 product before the stock-4 one. -/
theorem sortLowStock_ne_spec :
    sortLowStock [⟨"p4", "b", 1, 4, 5⟩, ⟨"p3", "a", 1, 3, 5⟩]
      ≠ specSortLowStock [⟨"p4", "b", 1, 4, 5⟩, ⟨"p3", "a", 1, 3, 5⟩] ∧
    sortLowStock [⟨"p4", "b", 1, 4, 5⟩, ⟨"p3", "a", 1, 3, 5⟩]
      = [⟨"p4", "b", 1, 4, 5⟩, ⟨"p3", "a", 1, 3, 5⟩] := by
  decide

/-- C7 (amended): the display ordering is a permutation of the input sorted
ascending by urgency rank (Critical before High before Medium); ties keep
the input's relative order (the comparator is only the urgency rank — there
is no stock or name tie-break), which the last conjunct expresses as
stability: any correctly ordered pair of the input is preserved. -/
theorem sortLowStock_sorted (ps : List Product) :
    List.Perm (sortLowStock ps) ps ∧
    List.Sorted urgencyLE (sortLowStock ps) ∧
    ∀ a b, urgencyLE a b → List.Sublist [a, b] ps →
      List.Sublist [a, b] (sortLowStock ps) :=
  ⟨List.perm_insertionSort _ ps, List.sorted_insertionSort _ ps,
    fun _ _ hab hsub => List.pair_sublist_insertionSort hab hsub⟩

/-- C7 (witness): the stability conjunct instantiated on a concrete
equal-urgency pair. -/
theorem sortLowStock_sorted_witness :
    List.Sublist [(⟨"p4", "b", 1, 4, 5⟩ : Product), ⟨"p3", "a", 1, 3, 5⟩]
      (sortLowStock [⟨"p4", "b", 1, 4, 5⟩, ⟨"p3", "a", 1, 3, 5⟩]) :=
  (sortLowStock_sorted [⟨"p4", "b", 1, 4, 5⟩, ⟨"p3", "a", 1, 3, 5⟩]).2.2
    ⟨"p4", "b", 1, 4, 5⟩ ⟨"p3", "a", 1, 3, 5⟩ (by decide) (List.Sublist.refl _)

/-- C3 (counterexample): a line whose productId resolves to no product at all
passes `validateOrder` (only emptiness is checked), and a line whose snapshot
stock is stale fails it although the product's currently known stock would
admit the quantity. -/
theorem validateOrder_ne_spec :
    validateOrder [⟨"ghost", "g", 1, 5, 1⟩] = true ∧
    specValidateOrder [] [⟨"ghost", "g", 1, 5, 1⟩] = false ∧
    validateOrder [⟨"p", "P", 1, 3, 5⟩] = false ∧
    specValidateOrder [⟨"p", "P", 1, 10, 3⟩] [⟨"p", "P", 1, 3, 5⟩] = true := by
  decide

/-- One line passes `validateItem` exactly when a product is selected, the
quantity is positive, and the quantity does not exceed the line's stock
snapshot. -/
theorem validateItem_eq_none (it : OrderFormItem) :
    validateItem it = none ↔
      it.productId ≠ "" ∧ 0 < it.quantity ∧ it.quantity ≤ (it.availableStock : Int) := by
  unfold validateItem
  split_ifs with h1 h2 h3 <;> simp_all

/-- C3 (amended): `validateOrder` accepts a candidate order exactly when every
line has a non-empty productId (a selected product), a positive quantity, and
a quantity not exceeding the line's `availableStock` snapshot captured at
selection time; resolution against the product list and the currently known
stock are not re-checked. -/
theorem validateOrder_iff (items : List OrderFormItem) :
    validateOrder items = true ↔
      ∀ it ∈ items, it.productId ≠ "" ∧ 0 < it.quantity ∧
        it.quantity ≤ (it.availableStock : Int) := by
  simp [validateOrder, List.all_eq_true, validateItem_eq_none]

/-- The submitted total is the sum of price×quantity over the lines. -/
theorem calculateTotal_eq_sum (items : List OrderFormItem) :
    calculateTotal items = (items.map (fun it => it.price * (it.quantity : ℚ))).sum := by
  suffices h : ∀ (l : List OrderFormItem) (a : ℚ),
      l.foldl (fun total it => total + it.price * (it.quantity : ℚ)) a
        = a + (l.map (fun it => it.price * (it.quantity : ℚ))).sum by
    simpa [calculateTotal] using h items 0
  intro l
  induction l with
  | nil => intro a; simp
  | cons x xs ih => intro a; simp [ih, add_assoc]

/-- A sum of integer-cent amounts is an integer-cent amount. -/
theorem sum_cents (l : List ℚ) (h : ∀ x ∈ l, ∃ k : ℤ, x = (k : ℚ) / 100) :
    ∃ K : ℤ, l.sum = (K : ℚ) / 100 := by
  induction l with
  | nil => exact ⟨0, by simp⟩
  | cons x xs ih =>
    obtain ⟨k, hk⟩ := h x (by simp)
    obtain ⟨K, hK⟩ := ih (fun y hy => h y (by simp [hy]))
    refine ⟨k + K, ?_⟩
    rw [List.sum_cons, hk, hK]
    push_cast
    ring

/-- Rounding to cents fixes an amount that is already whole cents. -/
theorem roundToCents_cents (k : ℤ) : roundToCents ((k : ℚ) / 100) = (k : ℚ) / 100 := by
  unfold roundToCents
  have harg : (k : ℚ) / 100 * 100 + 1 / 2 = 1 / 2 + (k : ℚ) := by
    field_simp
    ring
  rw [harg, Int.floor_add_int]
  norm_num

/-- C4 (counterexample): with a unit price of 1/200 (0.005) and quantity 1 the
submitted total is the exact sum 0.005, not the claimed value rounded to two
decimal places (0.01). -/
theorem calculateTotal_not_rounded :
    (orderData [⟨"p", "P", 1 / 200, 5, 1⟩]).totalPrice
      ≠ roundToCents ((([⟨"p", "P", 1 / 200, 5, 1⟩] : List OrderFormItem).map
          (fun it => it.price * (it.quantity : ℚ))).sum) := by
  have hsum : (([⟨"p", "P", (1 : ℚ) / 200, 5, 1⟩] : List OrderFormItem).map
      (fun it => it.price * (it.quantity : ℚ))).sum = 1 / 200 := by
    norm_num
  have ht : (orderData [⟨"p", "P", (1 : ℚ) / 200, 5, 1⟩]).totalPrice = 1 / 200 := by
    show calculateTotal _ = _
    rw [calculateTotal_eq_sum, hsum]
  have hr : roundToCents ((1 : ℚ) / 200) = 1 / 100 := by
    unfold roundToCents
    norm_num
  rw [hsum, ht, hr]
  norm_num

/-- C4 (amended): the total submitted with the order is the exact, unrounded
sum of unit price snapshot × quantity over the lines; no rounding to the
currency's minor unit is applied, so the total agrees with its rounded value
only when every line's amount is already a whole number of cents. -/
theorem orderData_totalPrice (items : List OrderFormItem) :
    (orderData items).totalPrice
      = ((orderData items).items.map (fun it => it.price * (it.quantity : ℚ))).sum ∧
    ((∀ it ∈ items, ∃ k : ℤ, it.price * (it.quantity : ℚ) = (k : ℚ) / 100) →
      roundToCents ((orderData items).totalPrice) = (orderData items).totalPrice) := by
  constructor
  · show calculateTotal items = ((items.map _).map _).sum
    rw [calculateTotal_eq_sum, List.map_map]
    rfl
  · intro h
    obtain ⟨K, hK⟩ := sum_cents (items.map (fun it => it.price * (it.quantity : ℚ)))
      (by
        intro x hx
        rw [List.mem_map] at hx
        obtain ⟨it, hit, rfl⟩ := hx
        exact h it hit)
    show roundToCents (calculateTotal items) = calculateTotal items
    rw [calculateTotal_eq_sum, hK, roundToCents_cents]

/-- C4 (witness): a one-line order at price 3 and quantity 2 (a whole-cent
amount), on which the rounded and exact totals agree. -/
theorem orderData_totalPrice_witness :
    roundToCents ((orderData [⟨"p", "P", 3, 5, 2⟩]).totalPrice)
      = (orderData [⟨"p", "P", 3, 5, 2⟩]).totalPrice :=
  (orderData_totalPrice [⟨"p", "P", 3, 5, 2⟩]).2 (by
    intro it hit
    rw [List.mem_singleton] at hit
    subst hit
    exact ⟨600, by norm_num⟩)

/-- C9 (counterexample): in a form state where both lines carry product "a",
line 0's dropdown still offers "a" (the code never excludes ids equal to the
line's own selection, wherever they occur), while the claimed rule — exclude
ids selected on a *different* line — would offer nothing. -/
theorem availableProducts_ne_spec :
    availableProducts [⟨"a", "A", 1, 1, 1⟩, ⟨"a", "A", 1, 1, 1⟩] [⟨"a", "A", 1, 1, 5⟩] "a"
      = [⟨"a", "A", 1, 1, 5⟩] ∧
    specAvailableProducts [⟨"a", "A", 1, 1, 1⟩, ⟨"a", "A", 1, 1, 1⟩] [⟨"a", "A", 1, 1, 5⟩] 0
      = [] := by
  decide

/-- C9 (amended): the dropdown built with the current line's selection `cur`
offers exactly the catalog products with positive stock whose id differs from
every non-empty selection other than `cur` itself; hence zero-stock products
are never offered, and a product selected on another line is hidden unless it
coincides with the current line's own selection. -/
theorem mem_availableProducts (orderItems : List OrderFormItem) (products : List Product)
    (cur : String) (p : Product) :
    p ∈ availableProducts orderItems products cur ↔
      p ∈ products ∧ 0 < p.stock ∧
        ∀ it ∈ orderItems, it.productId ≠ "" → it.productId ≠ cur →
          it.productId ≠ p.id := by
  unfold availableProducts
  simp only [List.mem_filter, List.mem_map, Bool.and_eq_true, decide_eq_true_eq,
    Bool.not_eq_true', decide_eq_false_iff_not]
  constructor
  · rintro ⟨hp, hstock, hnotmem⟩
    refine ⟨hp, hstock, fun it hit hne hnecur heq => hnotmem ⟨⟨it, hit, heq⟩, ?_, ?_⟩⟩
    · intro h
      exact hne (by rw [heq, h])
    · intro h
      exact hnecur (by rw [heq, h])
  · rintro ⟨hp, hstock, hall⟩
    refine ⟨hp, hstock, fun hmem => ?_⟩
    obtain ⟨⟨it, hit, heq⟩, hne, hnecur⟩ := hmem
    refine hall it hit ?_ ?_ heq
    · intro h
      exact hne (by rw [← heq, h])
    · intro h
      exact hnecur (by rw [← heq, h])

/-- C10: selecting a product on a line — when the chosen id resolves via
`products.find` — rewrites exactly that line with the product's name, price
and stock, clamps the quantity to min(previous quantity, stock), so the new
quantity never exceeds the product's known stock; an unresolvable id leaves
the item list unchanged. -/
theorem updateOrderItem_spec (orderItems : List OrderFormItem) (index : Nat) (value : String)
    (products : List Product) :
    (products.find? (fun p => p.id = value) = none →
      updateOrderItem orderItems index value products = orderItems) ∧
    (∀ sp old, products.find? (fun p => p.id = value) = some sp →
      orderItems[index]? = some old →
      updateOrderItem orderItems index value products
        = orderItems.set index
            { productId := value, productName := sp.name, price := sp.price
              availableStock := sp.stock, quantity := min old.quantity (sp.stock : Int) } ∧
      (updateOrderItem orderItems index value products)[index]?
        = some { productId := value, productName := sp.name, price := sp.price
                 availableStock := sp.stock, quantity := min old.quantity (sp.stock : Int) } ∧
      min old.quantity (sp.stock : Int) ≤ (sp.stock : Int)) := by
  constructor
  · intro h
    unfold updateOrderItem
    rw [h]
  · intro sp old hfind hold
    have hlen : index < orderItems.length := by
      obtain ⟨h, -⟩ := List.getElem?_eq_some_iff.mp hold
      exact h
    have hdef : updateOrderItem orderItems index value products
        = orderItems.set index
            { productId := value, productName := sp.name, price := sp.price
              availableStock := sp.stock, quantity := min old.quantity (sp.stock : Int) } := by
      unfold updateOrderItem
      rw [hfind, hold]
    refine ⟨hdef, ?_, min_le_right _ _⟩
    rw [hdef]
    exact List.getElem?_set_self hlen

/-- C10 (witness): a concrete selection with previous quantity 7 clamped to
the product's stock 5. -/
theorem updateOrderItem_spec_witness :
    updateOrderItem [⟨"", "", 0, 0, 7⟩] 0 "a" [⟨"a", "A", 2, 5, 5⟩]
      = ([⟨"", "", 0, 0, 7⟩] : List OrderFormItem).set 0
          ⟨"a", "A", 2, 5, min 7 ((5 : Nat) : Int)⟩ ∧
    min (7 : Int) ((5 : Nat) : Int) ≤ ((5 : Nat) : Int) := by
  have h := (updateOrderItem_spec [⟨"", "", 0, 0, 7⟩] 0 "a" [⟨"a", "A", 2, 5, 5⟩]).2
    ⟨"a", "A", 2, 5, 5⟩ ⟨"", "", 0, 0, 7⟩ (by decide) (by decide)
  exact ⟨h.1, h.2.2⟩

/-- One line check passes exactly when the product resolves, the quantity is
positive, and the aggregated demand for the product fits its stock. -/
theorem lineCheck_eq_none (products : List Product) (items : List OrderItem) (it : OrderItem) :
    lineCheck products items it = none ↔
      ∃ p, products.find? (fun q => q.id = it.productId) = some p ∧
        0 < it.quantity ∧ requiredQty items it.productId ≤ (p.stock : Int) := by
  unfold lineCheck
  cases hfind : products.find? (fun q => q.id = it.productId) with
  | none => simp
  | some p =>
    simp only [Option.some.injEq]
    split_ifs with hq hs
    · simp only [reduceCtorEq, false_iff]
      rintro ⟨q, -, hpos, -⟩
      omega
    · simp only [reduceCtorEq, false_iff]
      rintro ⟨q, hq', -, hle⟩
      cases hq'
      omega
    · simp only [true_iff]
      exact ⟨p, rfl, by omega, by omega⟩

/-- Request validation passes exactly when every line passes its check. -/
theorem validateRequest_eq_none (products : List Product) (items : List OrderItem) :
    validateRequest products items = none ↔
      ∀ it ∈ items, ∃ p, products.find? (fun q => q.id = it.productId) = some p ∧
        0 < it.quantity ∧ requiredQty items it.productId ≤ (p.stock : Int) := by
  unfold validateRequest
  rw [List.findSome?_eq_none_iff]
  exact forall_congr' (fun it => forall_congr' (fun _ => lineCheck_eq_none products items it))

/-- Searching the catalog by id is unaffected by a stock rewrite. -/
theorem find?_decrement (products : List Product) (f : Product → Nat) (pid : String) :
    (products.map (fun p => { p with stock := f p })).find? (fun q => q.id = pid)
      = (products.find? (fun q => q.id = pid)).map (fun p => { p with stock := f p }) := by
  rw [List.find?_map]
  rfl

/-- A product id no line mentions has aggregated demand zero. -/
theorem requiredQty_eq_zero (items : List OrderItem) (pid : String)
    (h : ∀ it ∈ items, it.productId ≠ pid) : requiredQty items pid = 0 := by
  unfold requiredQty
  rw [List.filter_eq_nil_iff.mpr (fun it hit => by simp [h it hit])]
  simp

/-- Aggregated demand is non-negative when every line's quantity is positive. -/
theorem requiredQty_nonneg (items : List OrderItem)
    (h : ∀ it ∈ items, 0 < it.quantity) (pid : String) : 0 ≤ requiredQty items pid := by
  unfold requiredQty
  refine List.sum_nonneg ?_
  intro x hx
  rw [List.mem_map] at hx
  obtain ⟨it, hit, rfl⟩ := hx
  exact le_of_lt (h it (List.mem_of_mem_filter hit))

/-- On a validated request, the aggregated demand for any catalog product fits
its stock. -/
theorem requiredQty_le_stock (products : List Product) (items : List OrderItem)
    (hval : validateRequest products items = none) (pid : String) (p : Product)
    (hfind : products.find? (fun q => q.id = pid) = some p) :
    requiredQty items pid ≤ (p.stock : Int) := by
  by_cases href : ∃ it ∈ items, it.productId = pid
  · obtain ⟨it, hit, hpid⟩ := href
    obtain ⟨q, hq, -, hle⟩ := (validateRequest_eq_none products items).mp hval it hit
    rw [hpid] at hq hle
    obtain rfl : q = p := by rw [hq] at hfind; injection hfind
    exact hle
  · push_neg at href
    rw [requiredQty_eq_zero items pid href]
    exact_mod_cast Int.ofNat_nonneg p.stock

/-- The aggregated demand of a one-line request for that line's product is the
line's quantity. -/
theorem requiredQty_singleton (pid : String) (q : Int) (pr : ℚ) :
    requiredQty [⟨pid, q, pr⟩] pid = q := by
  simp [requiredQty]

/-- Line check once the product has been resolved. -/
theorem lineCheck_found (products : List Product) (items : List OrderItem) (it : OrderItem)
    (p : Product) (hfind : products.find? (fun q => q.id = it.productId) = some p) :
    lineCheck products items it
      = (if it.quantity ≤ (0 : Int) then some .invalidQuantity
         else if (p.stock : Int) < requiredQty items it.productId
           then some .insufficientStock
         else none) := by
  unfold lineCheck
  rw [hfind]

/-- Validating a one-line request is checking that line. -/
theorem validateRequest_singleton (products : List Product) (it : OrderItem) :
    validateRequest products [it] = lineCheck products [it] it := by
  unfold validateRequest
  cases h : lineCheck products [it] it <;> simp [List.findSome?_cons, h]

/-- C2: `createOrder` is all-or-nothing.  On any failure it returns the state
unchanged — stock levels identical, no new order.  On success the order store
gains exactly the one new order, whose `totalPrice` is the sum of item
price×quantity, and every product of the catalog (looked up by id) has its
stock decreased by exactly the aggregated quantity the request demands of it
(zero for unreferenced products). -/
theorem createOrder_atomic (st : LedgerState) (items : List OrderItem) (oid : String)
    (ts : Nat) :
    (∀ e, (createOrder st items oid ts).2 = some e → (createOrder st items oid ts).1 = st) ∧
    ((createOrder st items oid ts).2 = none →
      (createOrder st items oid ts).1.orders
        = { id := oid, items := items,
            totalPrice := (items.map (fun it => it.price * (it.quantity : ℚ))).sum,
            createdAt := ts } :: st.orders ∧
      (createOrder st items oid ts).1.orders.length = st.orders.length + 1 ∧
      ∀ pid p, st.products.find? (fun q => q.id = pid) = some p →
        ∃ p', (createOrder st items oid ts).1.products.find? (fun q => q.id = pid) = some p' ∧
          p'.id = p.id ∧ (p'.stock : Int) = (p.stock : Int) - requiredQty items pid) := by
  unfold createOrder
  cases hval : validateRequest st.products items with
  | some e => exact ⟨fun _ _ => rfl, by simp⟩
  | none =>
    refine ⟨fun e he => absurd he (by simp), fun _ => ⟨rfl, by simp, ?_⟩⟩
    intro pid p hfind
    rw [find?_decrement st.products
      (fun r => r.stock - (requiredQty items r.id).toNat) pid, hfind, Option.map_some']
    have hpos : ∀ it ∈ items, 0 < it.quantity := by
      intro it hit
      obtain ⟨-, -, hq, -⟩ := (validateRequest_eq_none st.products items).mp hval it hit
      exact hq
    have h0 : 0 ≤ requiredQty items pid := requiredQty_nonneg items hpos pid
    have hle : requiredQty items pid ≤ (p.stock : Int) :=
      requiredQty_le_stock st.products items hval pid p hfind
    have hpid : p.id = pid := by
      have := List.find?_some hfind
      simpa using this
    refine ⟨_, rfl, rfl, ?_⟩
    show ((p.stock - (requiredQty items p.id).toNat : Nat) : Int)
      = (p.stock : Int) - requiredQty items pid
    rw [hpid]
    omega

/-- C2 (witness): a catalog with one product of stock 10 and a one-line order
of quantity 3, leaving stock 7. -/
theorem createOrder_atomic_witness :
    ∃ p', (createOrder ⟨[⟨"a", "A", 1, 10, 5⟩], []⟩ [⟨"a", 3, 1⟩] "o" 7).1.products.find?
        (fun q => q.id = "a") = some p' ∧
      p'.id = (⟨"a", "A", 1, 10, 5⟩ : Product).id ∧
      (p'.stock : Int) = ((⟨"a", "A", 1, 10, 5⟩ : Product).stock : Int)
        - requiredQty [⟨"a", 3, 1⟩] "a" :=
  ((createOrder_atomic ⟨[⟨"a", "A", 1, 10, 5⟩], []⟩ [⟨"a", 3, 1⟩] "o" 7).2
    (by decide)).2.2 "a" ⟨"a", "A", 1, 10, 5⟩ (by decide)

/-- C8: under the serialized (atomic per call) semantics of the commit
protocol, two `createOrder` calls for the same product whose combined demand
exceeds its stock cannot both succeed — run in either order (the statement's
hypotheses are symmetric in the two calls): at most one returns success, and
a failing call reports `InsufficientStock`. -/
theorem createOrder_concurrent (st : LedgerState) (pid oid1 oid2 : String) (ts1 ts2 : Nat)
    (p : Product) (q1 q2 : Int) (pr1 pr2 : ℚ)
    (hfind : st.products.find? (fun r => r.id = pid) = some p)
    (h1 : 0 < q1) (h2 : 0 < q2) (hsum : (p.stock : Int) < q1 + q2) :
    ¬((createOrder st [⟨pid, q1, pr1⟩] oid1 ts1).2 = none ∧
        (createOrder (createOrder st [⟨pid, q1, pr1⟩] oid1 ts1).1
          [⟨pid, q2, pr2⟩] oid2 ts2).2 = none) ∧
    ((createOrder st [⟨pid, q1, pr1⟩] oid1 ts1).2 = some .insufficientStock ∨
      (createOrder (createOrder st [⟨pid, q1, pr1⟩] oid1 ts1).1
        [⟨pid, q2, pr2⟩] oid2 ts2).2 = some .insufficientStock) := by
  have hreq1 : requiredQty [⟨pid, q1, pr1⟩] pid = q1 := requiredQty_singleton pid q1 pr1
  by_cases hc : (p.stock : Int) < q1
  · have hv1 : validateRequest st.products [⟨pid, q1, pr1⟩] = some .insufficientStock := by
      rw [validateRequest_singleton, lineCheck_found st.products [⟨pid, q1, pr1⟩]
        ⟨pid, q1, pr1⟩ p hfind]
      dsimp only
      rw [hreq1, if_neg (by omega), if_pos hc]
    have he1 : (createOrder st [⟨pid, q1, pr1⟩] oid1 ts1).2 = some .insufficientStock := by
      unfold createOrder
      rw [hv1]
    refine ⟨fun hcon => ?_, Or.inl he1⟩
    rw [he1] at hcon
    exact absurd hcon.1 (by simp)
  · push_neg at hc
    have hv1 : validateRequest st.products [⟨pid, q1, pr1⟩] = none := by
      rw [validateRequest_singleton, lineCheck_found st.products [⟨pid, q1, pr1⟩]
        ⟨pid, q1, pr1⟩ p hfind]
      dsimp only
      rw [hreq1, if_neg (by omega), if_neg (by omega)]
    have hpid : p.id = pid := by
      have := List.find?_some hfind
      simpa using this
    have hprod : (createOrder st [⟨pid, q1, pr1⟩] oid1 ts1).1.products
        = st.products.map (fun r =>
            { r with stock := r.stock - (requiredQty [⟨pid, q1, pr1⟩] r.id).toNat }) := by
      unfold createOrder
      rw [hv1]
    have hfind1 : (createOrder st [⟨pid, q1, pr1⟩] oid1 ts1).1.products.find?
        (fun r => r.id = pid)
        = some { p with stock := p.stock - (requiredQty [⟨pid, q1, pr1⟩] p.id).toNat } := by
      rw [hprod, find?_decrement st.products
        (fun r => r.stock - (requiredQty [⟨pid, q1, pr1⟩] r.id).toNat) pid, hfind,
        Option.map_some']
    have hstock1 : ((p.stock - (requiredQty [⟨pid, q1, pr1⟩] p.id).toNat : Nat) : Int)
        = (p.stock : Int) - q1 := by
      rw [hpid, hreq1]
      omega
    have hv2 : validateRequest (createOrder st [⟨pid, q1, pr1⟩] oid1 ts1).1.products
        [⟨pid, q2, pr2⟩] = some .insufficientStock := by
      rw [validateRequest_singleton, lineCheck_found
        (createOrder st [⟨pid, q1, pr1⟩] oid1 ts1).1.products [⟨pid, q2, pr2⟩]
        ⟨pid, q2, pr2⟩ _ hfind1]
      dsimp only
      rw [requiredQty_singleton, if_neg (by omega), if_pos (by rw [hstock1]; omega)]
    have he2 : (createOrder (createOrder st [⟨pid, q1, pr1⟩] oid1 ts1).1
        [⟨pid, q2, pr2⟩] oid2 ts2).2 = some .insufficientStock := by
      generalize hS : (createOrder st [⟨pid, q1, pr1⟩] oid1 ts1).1 = S at hv2
      unfold createOrder
      rw [hv2]
    refine ⟨fun hcon => ?_, Or.inr he2⟩
    rw [he2] at hcon
    exact absurd hcon.2 (by simp)

/-- C8 (witness): stock 10 with two competing orders of 6 units each — the
first succeeds, the second reports InsufficientStock. -/
theorem createOrder_concurrent_witness :
    ¬((createOrder ⟨[⟨"a", "A", 1, 10, 5⟩], []⟩ [⟨"a", 6, 1⟩] "o1" 1).2 = none ∧
        (createOrder (createOrder ⟨[⟨"a", "A", 1, 10, 5⟩], []⟩ [⟨"a", 6, 1⟩] "o1" 1).1
          [⟨"a", 6, 1⟩] "o2" 2).2 = none) ∧
    ((createOrder ⟨[⟨"a", "A", 1, 10, 5⟩], []⟩ [⟨"a", 6, 1⟩] "o1" 1).2
        = some .insufficientStock ∨
      (createOrder (createOrder ⟨[⟨"a", "A", 1, 10, 5⟩], []⟩ [⟨"a", 6, 1⟩] "o1" 1).1
        [⟨"a", 6, 1⟩] "o2" 2).2 = some .insufficientStock) :=
  createOrder_concurrent ⟨[⟨"a", "A", 1, 10, 5⟩], []⟩ "a" "o1" "o2" 1 2
    ⟨"a", "A", 1, 10, 5⟩ 6 6 1 1 (by decide) (by decide) (by decide) (by decide)

end InventoryAce
